import Mathlib

/-!
Verification of the volleyball event-coordination app storage, join,
debt-calculation and IBAN-conversion layers.

The definitions below are a shallow embedding of the TypeScript source of the repository:

* `src/types.ts` — the data model (`User`, `AttendanceRecord`,
  `StoredEvent` = the persisted event shape, `Participant`,
  `VolleyballEvent`, `DebtItem`).
* `src/services/storage.ts` — the local-storage backend branches (the
  `!db` paths), embedded as pure transformations of a `Store` value that
  holds the three persisted collections.  ID generation
  (`crypto.randomUUID`) and the current time (`Date.now()`) are
  nondeterministic inputs of the program and are passed as explicit
  parameters.  The Firestore branches call an external collaborator; for
  the read/write failure-asymmetry analysis they are embedded separately
  against an abstract `Backend` whose primitive calls return
  `Except String _` (promise resolution or rejection).
* `App.tsx` — the debt-computation effect, embedded as `computeDebts`.
  The external `date-fns` call `differenceInCalendarDays(today, d)` is
  modelled by a calendar-day valuation `dateDay : String → Int` together
  with `todayDay : Int`, so that the difference is `todayDay - dateDay d`.
* `EventDetail.tsx` — `convertToCZIBAN`, embedded over Lean `String`s
  with the two regexes of the source expressed as explicit pattern
  checks.
-/

namespace Volleyball

/-- The status union type from `types.ts` (joined, declined, maybe),
shared by `Participant` and `AttendanceRecord`. -/
inductive AttStatus where
  | joined
  | declined
  | maybe
deriving DecidableEq, Repr

/-- `User` from `types.ts` (the `photoUrl` optional field is used
throughout `storage.ts` and the components). -/
structure User where
  id : String
  name : String
  photoUrl : Option String := none
deriving DecidableEq, Repr

/-- `AttendanceRecord` from `types.ts`. -/
structure AttendanceRecord where
  eventId : String
  userId : String
  status : AttStatus
  hasPaid : Bool
  timestamp : Nat
deriving DecidableEq, Repr

/-- The persisted event shape, the Omit of `VolleyballEvent` without the participants field in
`storage.ts`: by construction it has no participants field. -/
structure StoredEvent where
  id : String
  title : String
  date : String
  time : String
  location : String
  totalCost : Nat
  accountNumber : String
  description : Option String := none
deriving DecidableEq, Repr

/-- `Participant` from `types.ts` (derived, never stored). -/
structure Participant where
  userId : String
  name : String
  photoUrl : Option String
  status : AttStatus
  hasPaid : Bool
deriving DecidableEq, Repr

/-- `VolleyballEvent` from `types.ts`: the stored fields plus the hydrated
`participants` array. -/
structure VolleyballEvent where
  stored : StoredEvent
  participants : List Participant
deriving DecidableEq, Repr

/-- `DebtItem` from `types.ts`. -/
structure DebtItem where
  event : VolleyballEvent
  amount : Nat
  daysOverdue : Int
deriving DecidableEq, Repr

/-- The three local-storage collections (`LS_USERS`, `LS_EVENTS`,
`LS_ATTENDANCE` in `storage.ts`). -/
structure Store where
  users : List User
  events : List StoredEvent
  attendance : List AttendanceRecord
deriving DecidableEq, Repr

/-- `getUsers` (local branch): returns the stored users array. -/
def getUsers (s : Store) : List User :=
  s.users

/-- `getUser(id)`: `users.find(u => u.id === id)`. -/
def getUser (s : Store) (id : String) : Option User :=
  (getUsers s).find? (fun u => u.id == id)

/-- A `Partial<User>` argument to `updateUser`: each field is present or
absent (JS object-spread merges only the present keys). -/
structure UserUpdate where
  id : Option String := none
  name : Option String := none
  photoUrl : Option String := none
deriving DecidableEq, Repr

/-- The spread `{ ...users[userIndex], ...updates }` in `updateUser`:
present keys of the partial override the stored record. -/
def mergeUser (u : User) (upd : UserUpdate) : User :=
  { id := upd.id.getD u.id
    name := upd.name.getD u.name
    photoUrl :=
      match upd.photoUrl with
      | some v => some v
      | none => u.photoUrl }

/-- `lsUsers[idx] = updatedUser` at the first index whose `id` matches
(`findIndex` semantics). -/
def updateUserList (l : List User) (userId : String) (upd : UserUpdate) : List User :=
  match l with
  | [] => []
  | u :: rest =>
    if u.id == userId then mergeUser u upd :: rest
    else u :: updateUserList rest userId upd

/-- `updateUser(userId, updates)` (local branch): throws the Czech
not-found message when no user has the id, otherwise merges the partial
onto the stored record and writes it back. -/
def updateUser (s : Store) (userId : String) (upd : UserUpdate) :
    Except String (User × Store) :=
  match (getUsers s).find? (fun u => u.id == userId) with
  | none => .error "Uživatel nenalezen."
  | some u =>
    .ok (mergeUser u upd, { s with users := updateUserList s.users userId upd })

/-- `deleteUser(userId)` (local branch): filters the user out of the users
collection and filters all attendance records with that `userId` out of
the attendance collection.  There is no not-found check. -/
def deleteUser (s : Store) (userId : String) : Store :=
  { s with
    users := s.users.filter (fun u => u.id != userId)
    attendance := s.attendance.filter (fun a => a.userId != userId) }

/-- `getAttendances` (local branch). -/
def getAttendances (s : Store) : List AttendanceRecord :=
  s.attendance

/-- The `record` object built at the top of `updateAttendance`: every
field is populated; `hasPaid: hasPaid || false` maps an omitted (or
`false`) argument to `false`. -/
def mkAttendanceRecord (eventId userId : String) (status : AttStatus)
    (hasPaid : Option Bool) (now : Nat) : AttendanceRecord :=
  { eventId := eventId
    userId := userId
    status := status
    hasPaid := hasPaid.getD false
    timestamp := now }

/-- The spread `{ ...all[existingIndex], ...record }` in
`updateAttendance`: since `record` carries every field of the type, each
field of the result comes from `record`. -/
def mergeRecord (_old new : AttendanceRecord) : AttendanceRecord :=
  { eventId := new.eventId
    userId := new.userId
    status := new.status
    hasPaid := new.hasPaid
    timestamp := new.timestamp }

/-- The body of `updateAttendance` (local branch): replace the record at
the first index whose `(eventId, userId)` pair matches, else push the new
record at the end. -/
def upsertAttendance (l : List AttendanceRecord) (r : AttendanceRecord) :
    List AttendanceRecord :=
  match l with
  | [] => [r]
  | a :: rest =>
    if a.eventId == r.eventId && a.userId == r.userId then
      mergeRecord a r :: rest
    else
      a :: upsertAttendance rest r

/-- `updateAttendance(eventId, userId, status, hasPaid?)` (local branch);
`now` stands for `Date.now()`. -/
def updateAttendance (s : Store) (eventId userId : String) (status : AttStatus)
    (hasPaid : Option Bool) (now : Nat) : Store :=
  { s with
    attendance :=
      upsertAttendance s.attendance (mkAttendanceRecord eventId userId status hasPaid now) }

/-- `getRawEvents` (local branch). -/
def getRawEvents (s : Store) : List StoredEvent :=
  s.events

/-- The participant construction inside `getEvents`: resolve the user by
id; if found use their `name`/`photoUrl`, otherwise the fallback display
name (Neznámý) and no photo (the optional-chaining photo lookup is
`undefined`). -/
def hydrateParticipant (users : List User) (record : AttendanceRecord) : Participant :=
  match users.find? (fun u => u.id == record.userId) with
  | some user =>
    { userId := record.userId
      name := user.name
      photoUrl := user.photoUrl
      status := record.status
      hasPaid := record.hasPaid }
  | none =>
    { userId := record.userId
      name := "Neznámý"
      photoUrl := none
      status := record.status
      hasPaid := record.hasPaid }

/-- The join of `getEvents`: for each stored event, filter the attendance
records with a matching `eventId` and map them to participants. -/
def hydrateEvents (events : List StoredEvent) (attendance : List AttendanceRecord)
    (users : List User) : List VolleyballEvent :=
  events.map (fun event =>
    { stored := event
      participants :=
        (attendance.filter (fun a => a.eventId == event.id)).map
          (hydrateParticipant users) })

/-- `getEvents()` (local branch): fetch the three collections and join. -/
def getEvents (s : Store) : List VolleyballEvent :=
  hydrateEvents (getRawEvents s) (getAttendances s) (getUsers s)

/-- `createEvent(event)` (local branch): assign a generated id when
`event.id` is falsy (the empty string), strip `participants` by the
destructuring `const { participants, ...eventData } = event`, and push the
stored fields. -/
def createEvent (s : Store) (event : VolleyballEvent) (genId : String) : Store :=
  let id := if event.stored.id == "" then genId else event.stored.id
  let eventData := { event.stored with id := id }
  { s with events := s.events ++ [eventData] }

/-- The spread `{ ...events[idx], ...eventData }` in `updateEvent`: the
required stored fields are always present in `eventData` and win; the
optional `description` key overrides only when present. -/
def mergeStoredEvent (old new : StoredEvent) : StoredEvent :=
  { id := new.id
    title := new.title
    date := new.date
    time := new.time
    location := new.location
    totalCost := new.totalCost
    accountNumber := new.accountNumber
    description :=
      match new.description with
      | some d => some d
      | none => old.description }

/-- `events[idx] = { ...events[idx], ...eventData }` at the first index
whose `id` matches; when no index matches the list is left unchanged
(the `if (idx !== -1)` guard). -/
def updateEventList (l : List StoredEvent) (eventData : StoredEvent) : List StoredEvent :=
  match l with
  | [] => []
  | e :: rest =>
    if e.id == eventData.id then mergeStoredEvent e eventData :: rest
    else e :: updateEventList rest eventData

/-- `updateEvent(updatedEvent)` (local branch): strip `participants`,
merge onto the stored record when found, silently keep the store
unchanged when not found. -/
def updateEvent (s : Store) (updatedEvent : VolleyballEvent) : Store :=
  { s with events := updateEventList s.events updatedEvent.stored }

/-- `deleteEvent(id)` (local branch): filter the event out and filter all
attendance records with that `eventId` out.  No not-found check. -/
def deleteEvent (s : Store) (id : String) : Store :=
  { s with
    events := s.events.filter (fun e => e.id != id)
    attendance := s.attendance.filter (fun a => a.eventId != id) }

/-! ## Debt computation (`App.tsx`, the debt useEffect) -/

/-- `Math.ceil(totalCost / joinedCount)` on natural inputs. -/
def jsCeilDiv (a b : Nat) : Nat :=
  (a + b - 1) / b

/-- The per-event body of the debt useEffect in `App.tsx`.  The external
`date-fns` call `differenceInCalendarDays(today, new Date(event.date))`
is modelled as `todayDay - dateDay event.stored.date`, where `dateDay`
assigns each ISO date string its calendar-day number and `todayDay` is
the day number of `new Date()`. -/
def debtForEvent (currentUserId : String) (dateDay : String → Int) (todayDay : Int)
    (event : VolleyballEvent) : Option DebtItem :=
  let diff := todayDay - dateDay event.stored.date
  if diff > 1 then
    match event.participants.find? (fun p => p.userId == currentUserId) with
    | some myParticipation =>
      if myParticipation.status == AttStatus.joined && !myParticipation.hasPaid then
        let joinedCount :=
          (event.participants.filter (fun p => p.status == AttStatus.joined)).length
        let costPerPerson :=
          if joinedCount > 0 then jsCeilDiv event.stored.totalCost joinedCount else 0
        some { event := event, amount := costPerPerson, daysOverdue := diff }
      else none
    | none => none
  else none

/-- The debt useEffect of `App.tsx`: iterate over the events in order and
push a `DebtItem` for each overdue event where the current user joined
and has not paid. -/
def computeDebts (events : List VolleyballEvent) (currentUserId : String)
    (dateDay : String → Int) (todayDay : Int) : List DebtItem :=
  events.filterMap (debtForEvent currentUserId dateDay todayDay)

/-! ## `convertToCZIBAN` (`EventDetail.tsx`) -/

/-- The character class `\s` of the whitespace-stripping replace call,
restricted to the ASCII whitespace characters. -/
def isJsWhitespace (c : Char) : Bool :=
  c == ' ' || c == '\t' || c == '\n' || c == '\r' ||
    c == Char.ofNat 11 || c == Char.ofNat 12

/-- The call that strips every whitespace character from `accountStr`. -/
def removeWhitespace (s : String) : String :=
  String.mk (s.data.filter (fun c => !isJsWhitespace c))

/-- The test `/^CZ\d{22}$/.test(cleanStr)`: the literal characters `CZ`
followed by exactly 22 ASCII digits. -/
def matchesCZIbanPattern (s : String) : Bool :=
  s.length == 24 && s.data.take 2 == ['C', 'Z'] && (s.data.drop 2).all Char.isDigit

/-- Splitting a character list at every occurrence of a separator
character (the semantics of the JS split on a one-character string). -/
def splitOnChar (c : Char) : List Char → List (List Char)
  | [] => [[]]
  | x :: xs =>
    match splitOnChar c xs with
    | r :: rs => if x == c then [] :: r :: rs else (x :: r) :: rs
    | [] => if x == c then [[], []] else [[x]]

/-- The match of the account regex (an optional 1–6 digit group and a
dash, a 1–10 digit group, a slash, an exactly-4-digit group, anchored at
both ends): returns the captured (possibly empty) prefix group, the
account-number group and the bank-code group.  The anchored regex admits
exactly the strings with one slash, a 4-digit suffix, and a digit block
of length 1–10 optionally preceded by a 1–6 digit block and a dash. -/
def parseAccountNumber (s : String) : Option (String × String × String) :=
  match splitOnChar '/' s.data with
  | [before, bankCode] =>
    if bankCode.length == 4 && bankCode.all Char.isDigit then
      match splitOnChar '-' before with
      | [num] =>
        if 1 ≤ num.length && num.length ≤ 10 && num.all Char.isDigit then
          some ("", String.mk num, String.mk bankCode)
        else none
      | [pfx, num] =>
        if 1 ≤ pfx.length && pfx.length ≤ 6 && pfx.all Char.isDigit &&
            1 ≤ num.length && num.length ≤ 10 && num.all Char.isDigit then
          some (String.mk pfx, String.mk num, String.mk bankCode)
        else none
      | _ => none
    else none
  | _ => none

/-- `str.padStart(n, '0')`. -/
def padStartZeros (n : Nat) (s : String) : String :=
  String.mk (List.replicate (n - s.length) '0') ++ s

/-- One step of the digit-by-digit reduction:
`remainder = (remainder * 10 + parseInt(numericString[i], 10)) % 97`. -/
def mod97Step (remainder : Nat) (c : Char) : Nat :=
  (remainder * 10 + (c.toNat - Char.toNat '0')) % 97

/-- The reduction loop over `numericString`. -/
def mod97OfDigits (s : String) : Nat :=
  s.data.foldl mod97Step 0

/-- The decimal value of a digit string (for relating the reduction loop
to the true remainder of the numeral). -/
def decimalValue (s : String) : Nat :=
  s.data.foldl (fun acc c => acc * 10 + (c.toNat - Char.toNat '0')) 0

/-- `convertToCZIBAN` from `EventDetail.tsx`. -/
def convertToCZIBAN (accountStr : String) : Option String :=
  if accountStr == "" then none
  else
    let cleanStr := removeWhitespace accountStr
    if matchesCZIbanPattern cleanStr then some cleanStr
    else
      match parseAccountNumber cleanStr with
      | none => none
      | some (pfx, num, bankCode) =>
        let pfx6 := padStartZeros 6 pfx
        let num10 := padStartZeros 10 num
        let bank4 := padStartZeros 4 bankCode
        let bban := bank4 ++ pfx6 ++ num10
        let numericString := bban ++ "123500"
        let remainder := mod97OfDigits numericString
        let checkDigits := padStartZeros 2 (toString (98 - remainder))
        some ("CZ" ++ checkDigits ++ bban)

/-- Modelled from the spec wording of the already-an-IBAN test, for
comparison with `matchesCZIbanPattern` from the source: any 2 letters followed by 22
digits. -/
def specTwoLettersPattern (s : String) : Bool :=
  s.length == 24 && (s.data.take 2).all Char.isAlpha && (s.data.drop 2).all Char.isDigit

/-! ## Firestore-mode operations (`storage.ts`, the `db` branches)

The Firestore client is an external collaborator; each awaited call
either resolves or rejects, which we model as an `Except String _`
result recorded in a `Backend` value.  Reads that the source wraps in
`try/catch` swallow the rejection and return `[]`; calls outside any
`try/catch` propagate the rejection. -/

structure Backend where
  usersDocs : Except String (List User)
  attendanceDocs : Except String (List AttendanceRecord)
  eventsDocs : Except String (List StoredEvent)
  setUserDoc : Except String Unit
  deleteUserDoc : Except String Unit
  attendanceByUser : String → Except String (List AttendanceRecord)
  attendanceByEvent : String → Except String (List AttendanceRecord)
  deleteAttendanceDoc : Except String Unit
  setAttendanceDoc : Except String Unit
  setEventDoc : Except String Unit
  deleteEventDoc : Except String Unit

/-- `getUsers` (Firestore branch): `try { ... } catch { return [] }`. -/
def getUsersF (b : Backend) : List User :=
  match b.usersDocs with
  | .ok docs => docs
  | .error _ => []

/-- `getAttendances` (Firestore branch): the rejection is swallowed. -/
def getAttendancesF (b : Backend) : List AttendanceRecord :=
  match b.attendanceDocs with
  | .ok docs => docs
  | .error _ => []

/-- `getRawEvents` (Firestore branch): the rejection is swallowed. -/
def getRawEventsF (b : Backend) : List StoredEvent :=
  match b.eventsDocs with
  | .ok docs => docs
  | .error _ => []

/-- `getEvents()` (Firestore branch): joins the three reads; it cannot
reject because each read swallows its own failure. -/
def getEventsF (b : Backend) : List VolleyballEvent :=
  hydrateEvents (getRawEventsF b) (getAttendancesF b) (getUsersF b)

/-- The JS trim call: strip whitespace from both ends. -/
def jsTrim (s : String) : String :=
  String.mk (((s.data.dropWhile isJsWhitespace).reverse.dropWhile isJsWhitespace).reverse)

/-- The JS toLowerCase call (over the character data). -/
def jsToLower (s : String) : String :=
  String.mk (s.data.map Char.toLower)

/-- `createUser` (Firestore branch): duplicate-name check over
`getUsers()`, then an unguarded `setDoc`. -/
def createUserF (b : Backend) (name : String) (photoUrl : Option String)
    (newId : String) : Except String User :=
  if (getUsersF b).any (fun u => jsToLower u.name == jsToLower (jsTrim name)) then
    .error "Uživatel s tímto jménem již existuje."
  else
    let newUser : User :=
      { id := newId
        name := jsTrim name
        photoUrl :=
          match photoUrl with
          | some p => if p == "" then none else some p
          | none => none }
    match b.setUserDoc with
    | .ok _ => .ok newUser
    | .error e => .error e

/-- `updateUser` (Firestore branch): not-found check over `getUsers()`,
then an unguarded `setDoc`. -/
def updateUserF (b : Backend) (userId : String) (upd : UserUpdate) :
    Except String User :=
  match (getUsersF b).find? (fun u => u.id == userId) with
  | none => .error "Uživatel nenalezen."
  | some u =>
    match b.setUserDoc with
    | .ok _ => .ok (mergeUser u upd)
    | .error e => .error e

/-- `Promise.all(snapshot.docs.map(d => deleteDoc(d.ref)))`: rejects as
soon as one delete rejects. -/
def deleteAllAttendanceDocs (b : Backend) (docs : List AttendanceRecord) :
    Except String Unit :=
  match docs with
  | [] => .ok ()
  | _ :: rest =>
    match b.deleteAttendanceDoc with
    | .ok _ => deleteAllAttendanceDocs b rest
    | .error e => .error e

/-- `deleteUser` (Firestore branch): unguarded `deleteDoc`, unguarded
query, unguarded cascade deletes. -/
def deleteUserF (b : Backend) (userId : String) : Except String Unit := do
  let _ ← b.deleteUserDoc
  let snapshot ← b.attendanceByUser userId
  deleteAllAttendanceDocs b snapshot

/-- `updateAttendance` (Firestore branch): a single unguarded
`setDoc(docRef, record, { merge: true })`. -/
def updateAttendanceF (b : Backend) (eventId userId : String) (status : AttStatus)
    (hasPaid : Option Bool) (now : Nat) : Except String AttendanceRecord :=
  match b.setAttendanceDoc with
  | .ok _ => .ok (mkAttendanceRecord eventId userId status hasPaid now)
  | .error e => .error e

/-- `createEvent` (Firestore branch): unguarded `setDoc`, then
`getEvents()`. -/
def createEventF (b : Backend) : Except String (List VolleyballEvent) :=
  match b.setEventDoc with
  | .ok _ => .ok (getEventsF b)
  | .error e => .error e

/-- `updateEvent` (Firestore branch): unguarded merged `setDoc`, then
`getEvents()`. -/
def updateEventF (b : Backend) : Except String (List VolleyballEvent) :=
  match b.setEventDoc with
  | .ok _ => .ok (getEventsF b)
  | .error e => .error e

/-- `deleteEvent` (Firestore branch): unguarded `deleteDoc`, unguarded
query, unguarded cascade deletes, then `getEvents()`. -/
def deleteEventF (b : Backend) (id : String) : Except String (List VolleyballEvent) := do
  let _ ← b.deleteEventDoc
  let snapshot ← b.attendanceByEvent id
  let _ ← deleteAllAttendanceDocs b snapshot
  pure (getEventsF b)

/-! ## Invariants and concrete fixtures used by the witnesses -/

/-- The natural-key invariant of the attendance collection: at most one
record per `(eventId, userId)` pair. -/
def NoDupKeys (l : List AttendanceRecord) : Prop :=
  l.Pairwise (fun a b => ¬(a.eventId = b.eventId ∧ a.userId = b.userId))

/-- Fixture: a registered user with a photo. -/
def aliceUser : User :=
  { id := "u1", name := "Alice", photoUrl := some "alice.png" }

/-- Fixture: a registered user without a photo. -/
def bobUser : User :=
  { id := "u2", name := "Bob" }

/-- Fixture: a stored event. -/
def gameEvent : StoredEvent :=
  { id := "e1", title := "Monday game", date := "2024-01-01", time := "18:00",
    location := "Gym", totalCost := 1000, accountNumber := "123456789/0100" }

/-- Fixture: a store where event e1 has one attendance record of a
registered user and one orphaned record. -/
def c1Store : Store :=
  { users := [aliceUser]
    events := [gameEvent]
    attendance :=
      [ { eventId := "e1", userId := "u1", status := .joined, hasPaid := true, timestamp := 1 },
        { eventId := "e1", userId := "ghost", status := .maybe, hasPaid := false, timestamp := 2 } ] }

/-- Fixture: hydrated event, 1000 total, two joined participants, the
current user u1 joined and unpaid. -/
def debtEv : VolleyballEvent :=
  { stored := gameEvent
    participants :=
      [ { userId := "u1", name := "Alice", photoUrl := none, status := .joined, hasPaid := false },
        { userId := "u2", name := "Bob", photoUrl := none, status := .joined, hasPaid := true } ] }

/-- Fixture: the same event with the current user u1 marked as paid. -/
def debtEvPaid : VolleyballEvent :=
  { stored := gameEvent
    participants :=
      [ { userId := "u1", name := "Alice", photoUrl := none, status := .joined, hasPaid := true },
        { userId := "u2", name := "Bob", photoUrl := none, status := .joined, hasPaid := true } ] }

/-- Fixture: the same event with the current user u1 declined. -/
def debtEvDeclined : VolleyballEvent :=
  { stored := gameEvent
    participants :=
      [ { userId := "u1", name := "Alice", photoUrl := none, status := .declined, hasPaid := false },
        { userId := "u2", name := "Bob", photoUrl := none, status := .joined, hasPaid := true } ] }

/-- Fixture: a store whose only attendance record for (e1, u1) has
`hasPaid = true`. -/
def c3Store : Store :=
  { users := []
    events := []
    attendance :=
      [ { eventId := "e1", userId := "u1", status := .joined, hasPaid := true, timestamp := 5 } ] }

/-- Fixture: the empty store. -/
def emptyStore : Store :=
  { users := [], events := [], attendance := [] }

/-- Fixture: a hydrated event whose stored id (zzz) is absent from the
empty store. -/
def missingEvent : VolleyballEvent :=
  { stored := { id := "zzz", title := "Nowhere", date := "2024-01-01", time := "18:00",
                location := "Gym", totalCost := 0, accountNumber := "" }
    participants := [] }

/-- Fixture: a store with two users, one event and two attendance
records, used to exercise the cascades. -/
def c5Store : Store :=
  { users := [aliceUser, bobUser]
    events := [gameEvent]
    attendance :=
      [ { eventId := "e1", userId := "u1", status := .joined, hasPaid := false, timestamp := 1 },
        { eventId := "e1", userId := "u2", status := .joined, hasPaid := true, timestamp := 2 } ] }

/-- Fixture: the hydrated event observed after `deleteUser c5Store u1`. -/
def c5EventAfter : VolleyballEvent :=
  { stored := gameEvent
    participants :=
      [ { userId := "u2", name := "Bob", photoUrl := none, status := .joined, hasPaid := true } ] }

/-- Fixture: the surviving participant of `c5EventAfter`. -/
def bobParticipant : Participant :=
  { userId := "u2", name := "Bob", photoUrl := none, status := .joined, hasPaid := true }

/-- Fixture: a backend whose user fetch rejects while the event and
attendance fetches resolve. -/
def usersDownBackend : Backend :=
  { usersDocs := .error "unavailable"
    attendanceDocs := .ok
      [ { eventId := "e1", userId := "u1", status := .joined, hasPaid := false, timestamp := 1 } ]
    eventsDocs := .ok [gameEvent]
    setUserDoc := .ok ()
    deleteUserDoc := .ok ()
    attendanceByUser := fun _ => .ok []
    attendanceByEvent := fun _ => .ok []
    deleteAttendanceDoc := .ok ()
    setAttendanceDoc := .ok ()
    setEventDoc := .ok ()
    deleteEventDoc := .ok () }

/-- Fixture: a backend whose every write call rejects, whose attendance
fetch rejects, and whose user and event fetches resolve (the users
collection holds u1 so that the not-found and duplicate-name guards of
the write paths pass). -/
def writesDownBackend : Backend :=
  { usersDocs := .ok [aliceUser]
    attendanceDocs := .error "offline"
    eventsDocs := .ok [gameEvent]
    setUserDoc := .error "offline"
    deleteUserDoc := .error "offline"
    attendanceByUser := fun _ => .error "offline"
    attendanceByEvent := fun _ => .error "offline"
    deleteAttendanceDoc := .error "offline"
    setAttendanceDoc := .error "offline"
    setEventDoc := .error "offline"
    deleteEventDoc := .error "offline" }

/-- Fixture: a backend whose event fetch rejects while everything else
resolves. -/
def eventsDownBackend : Backend :=
  { usersDocs := .ok [aliceUser]
    attendanceDocs := .ok []
    eventsDocs := .error "unavailable"
    setUserDoc := .ok ()
    deleteUserDoc := .ok ()
    attendanceByUser := fun _ => .ok []
    attendanceByEvent := fun _ => .ok []
    deleteAttendanceDoc := .ok ()
    setAttendanceDoc := .ok ()
    setEventDoc := .ok ()
    deleteEventDoc := .ok () }

/-! ## Helper lemmas -/

theorem hydrateParticipant_userId (users : List User) (a : AttendanceRecord) :
    (hydrateParticipant users a).userId = a.userId := by
  unfold hydrateParticipant
  cases users.find? (fun u => u.id == a.userId) <;> rfl

theorem hydrateParticipant_status (users : List User) (a : AttendanceRecord) :
    (hydrateParticipant users a).status = a.status := by
  unfold hydrateParticipant
  cases users.find? (fun u => u.id == a.userId) <;> rfl

theorem hydrateParticipant_hasPaid (users : List User) (a : AttendanceRecord) :
    (hydrateParticipant users a).hasPaid = a.hasPaid := by
  unfold hydrateParticipant
  cases users.find? (fun u => u.id == a.userId) <;> rfl

theorem mergeRecord_eq (old new : AttendanceRecord) : mergeRecord old new = new :=
  rfl

/-! ## Claim theorems -/

/-- C9: `createEvent` and `updateEvent` strip the `participants` field
before persisting: the resulting store does not depend on the
participants of the argument, the stored record is assembled from the
stored fields alone (the `StoredEvent` type has no participants field),
and `updateEvent` merges only the stored fields onto the existing
record; neither operation touches the other collections. -/
theorem events_stored_without_participants (s : Store) (ev : VolleyballEvent)
    (ps : List Participant) (genId : String) :
    createEvent s { ev with participants := ps } genId = createEvent s ev genId ∧
    updateEvent s { ev with participants := ps } = updateEvent s ev ∧
    (createEvent s ev genId).events
      = s.events ++
          [{ ev.stored with id := if ev.stored.id == "" then genId else ev.stored.id }] ∧
    (updateEvent s ev).events = updateEventList s.events ev.stored ∧
    (createEvent s ev genId).users = s.users ∧
    (createEvent s ev genId).attendance = s.attendance ∧
    (updateEvent s ev).users = s.users ∧
    (updateEvent s ev).attendance = s.attendance :=
  ⟨rfl, rfl, rfl, rfl, rfl, rfl, rfl, rfl⟩

/-- C10: frame of the cascade deletes — `deleteUser u` leaves the events
collection unchanged, keeps every user whose id differs from `u` and
every attendance record whose `userId` differs from `u`; symmetrically,
`deleteEvent e` leaves the users collection unchanged, keeps every event
whose id differs from `e` and every attendance record whose `eventId`
differs from `e`. -/
theorem delete_frame_effects (s : Store) (u e : String) :
    (deleteUser s u).events = s.events ∧
    (deleteUser s u).users = s.users.filter (fun x => x.id != u) ∧
    (deleteUser s u).attendance = s.attendance.filter (fun a => a.userId != u) ∧
    (deleteEvent s e).users = s.users ∧
    (deleteEvent s e).events = s.events.filter (fun x => x.id != e) ∧
    (deleteEvent s e).attendance = s.attendance.filter (fun a => a.eventId != e) ∧
    (∀ x ∈ s.users, x.id ≠ u → x ∈ (deleteUser s u).users) ∧
    (∀ a ∈ s.attendance, a.userId ≠ u → a ∈ (deleteUser s u).attendance) ∧
    (∀ x ∈ s.events, x.id ≠ e → x ∈ (deleteEvent s e).events) ∧
    (∀ a ∈ s.attendance, a.eventId ≠ e → a ∈ (deleteEvent s e).attendance) := by
  refine ⟨rfl, rfl, rfl, rfl, rfl, rfl, ?_, ?_, ?_, ?_⟩
  · intro x hx hne
    exact List.mem_filter.mpr ⟨hx, by simpa using hne⟩
  · intro a ha hne
    exact List.mem_filter.mpr ⟨ha, by simpa using hne⟩
  · intro x hx hne
    exact List.mem_filter.mpr ⟨hx, by simpa using hne⟩
  · intro a ha hne
    exact List.mem_filter.mpr ⟨ha, by simpa using hne⟩

/-- C10 witness: the frame theorem applied to the two-user fixture with
ids that do not occur in it. -/
theorem delete_frame_effects_witness :
    aliceUser ∈ c5Store.users ∧ aliceUser.id ≠ "u9" ∧
    aliceUser ∈ (deleteUser c5Store "u9").users :=
  ⟨by decide, by decide,
    (delete_frame_effects c5Store "u9" "e9").2.2.2.2.2.2.1 aliceUser (by decide) (by decide)⟩

/-- C5: cascade correctness — after `deleteUser u` no participant of any
hydrated event carries `userId = u` and `getUser u` is not found; after
`deleteEvent e` no attendance record with `eventId = e` remains in the
store and no hydrated event with id `e` is observable via `getEvents`. -/
theorem cascade_delete_correct (s : Store) (u e : String) :
    (∀ V ∈ getEvents (deleteUser s u), ∀ p ∈ V.participants, p.userId ≠ u) ∧
    getUser (deleteUser s u) u = none ∧
    (∀ a ∈ (deleteEvent s e).attendance, a.eventId ≠ e) ∧
    (∀ V ∈ getEvents (deleteEvent s e), V.stored.id ≠ e) := by
  refine ⟨?_, ?_, ?_, ?_⟩
  · intro V hV p hp
    simp only [getEvents, hydrateEvents, getRawEvents, getAttendances, getUsers, deleteUser,
      List.mem_map] at hV
    obtain ⟨E, hE, rfl⟩ := hV
    simp only [List.mem_map] at hp
    obtain ⟨a, ha, rfl⟩ := hp
    have ha1 : a ∈ s.attendance.filter (fun x => x.userId != u) :=
      (List.mem_filter.mp ha).1
    have ha2 : (a.userId != u) = true := (List.mem_filter.mp ha1).2
    rw [hydrateParticipant_userId]
    simpa using ha2
  · have h : ∀ x ∈ s.users.filter (fun v => v.id != u), ¬(x.id == u) = true := by
      intro x hx
      have hx2 := (List.mem_filter.mp hx).2
      simpa using hx2
    exact List.find?_eq_none.mpr h
  · intro a ha
    have h := (List.mem_filter.mp ha).2
    simpa using h
  · intro V hV
    simp only [getEvents, hydrateEvents, getRawEvents, getAttendances, getUsers, deleteEvent,
      List.mem_map] at hV
    obtain ⟨E, hE, rfl⟩ := hV
    have h := (List.mem_filter.mp hE).2
    simpa using h

/-- C5 witness: the cascade theorem applied to the two-user fixture,
observing the surviving participant of the hydrated event after
deleting u1, and the not-found lookup of u1. -/
theorem cascade_delete_correct_witness :
    c5EventAfter ∈ getEvents (deleteUser c5Store "u1") ∧
    bobParticipant ∈ c5EventAfter.participants ∧
    bobParticipant.userId ≠ "u1" ∧
    getUser (deleteUser c5Store "u1") "u1" = none := by
  refine ⟨by decide, by decide, ?_, (cascade_delete_correct c5Store "u1" "e1").2.1⟩
  exact (cascade_delete_correct c5Store "u1" "e1").1 c5EventAfter (by decide)
    bobParticipant (by decide)

/-- C1: join correctness of `getEvents` — every stored event is hydrated
into an event whose participant list is exactly the in-order image of
the attendance records with a matching `eventId`, each participant
carrying the userId, status and hasPaid of its attendance record, the
name and photoUrl of the referenced user when that user exists, and the
fallback name with no photo when it does not. -/
theorem getEvents_join_correct (s : Store) (E : StoredEvent) (hE : E ∈ s.events) :
    ∃ V ∈ getEvents s,
      V.stored = E ∧
      V.participants
        = (s.attendance.filter (fun a => a.eventId == E.id)).map
            (hydrateParticipant s.users) ∧
      (∀ a : AttendanceRecord,
        (hydrateParticipant s.users a).userId = a.userId ∧
        (hydrateParticipant s.users a).status = a.status ∧
        (hydrateParticipant s.users a).hasPaid = a.hasPaid) ∧
      (∀ a : AttendanceRecord, ∀ u : User,
        s.users.find? (fun x => x.id == a.userId) = some u →
        (hydrateParticipant s.users a).name = u.name ∧
        (hydrateParticipant s.users a).photoUrl = u.photoUrl) ∧
      (∀ a : AttendanceRecord,
        s.users.find? (fun x => x.id == a.userId) = none →
        (hydrateParticipant s.users a).name = "Neznámý" ∧
        (hydrateParticipant s.users a).photoUrl = none) := by
  refine ⟨{ stored := E,
            participants := (s.attendance.filter (fun a => a.eventId == E.id)).map
              (hydrateParticipant s.users) }, ?_, rfl, rfl, ?_, ?_, ?_⟩
  · exact List.mem_map.mpr ⟨E, hE, rfl⟩
  · intro a
    exact ⟨hydrateParticipant_userId _ _, hydrateParticipant_status _ _,
      hydrateParticipant_hasPaid _ _⟩
  · intro a u h
    unfold hydrateParticipant
    rw [h]
    exact ⟨rfl, rfl⟩
  · intro a h
    unfold hydrateParticipant
    rw [h]
    exact ⟨rfl, rfl⟩

/-- C1 witness: the join theorem applied to the fixture store whose
event has one attendance record of a registered user and one orphaned
record. -/
theorem getEvents_join_correct_witness :
    gameEvent ∈ c1Store.events ∧
    ∃ V ∈ getEvents c1Store,
      V.stored = gameEvent ∧
      V.participants
        = (c1Store.attendance.filter (fun a => a.eventId == gameEvent.id)).map
            (hydrateParticipant c1Store.users) ∧
      (∀ a : AttendanceRecord,
        (hydrateParticipant c1Store.users a).userId = a.userId ∧
        (hydrateParticipant c1Store.users a).status = a.status ∧
        (hydrateParticipant c1Store.users a).hasPaid = a.hasPaid) ∧
      (∀ a : AttendanceRecord, ∀ u : User,
        c1Store.users.find? (fun x => x.id == a.userId) = some u →
        (hydrateParticipant c1Store.users a).name = u.name ∧
        (hydrateParticipant c1Store.users a).photoUrl = u.photoUrl) ∧
      (∀ a : AttendanceRecord,
        c1Store.users.find? (fun x => x.id == a.userId) = none →
        (hydrateParticipant c1Store.users a).name = "Neznámý" ∧
        (hydrateParticipant c1Store.users a).photoUrl = none) :=
  ⟨by decide, getEvents_join_correct c1Store gameEvent (by decide)⟩

theorem find?_upsertAttendance (l : List AttendanceRecord) (r : AttendanceRecord) :
    (upsertAttendance l r).find? (fun a => a.eventId == r.eventId && a.userId == r.userId)
      = some r := by
  induction l with
  | nil => exact List.find?_cons_of_pos _ (by simp)
  | cons a rest ih =>
    by_cases h : (a.eventId == r.eventId && a.userId == r.userId) = true
    · simp only [upsertAttendance, if_pos h, mergeRecord_eq]
      exact List.find?_cons_of_pos _ (by simp)
    · simp only [upsertAttendance, if_neg h]
      exact (@List.find?_cons_of_neg _
        (fun x => x.eventId == r.eventId && x.userId == r.userId) a
        (upsertAttendance rest r) h).trans ih

theorem upsertAttendance_of_find?_none (l : List AttendanceRecord) (r : AttendanceRecord)
    (h : l.find? (fun a => a.eventId == r.eventId && a.userId == r.userId) = none) :
    upsertAttendance l r = l ++ [r] := by
  induction l with
  | nil => rfl
  | cons a rest ih =>
    rw [List.find?_eq_none] at h
    have ha : ¬(a.eventId == r.eventId && a.userId == r.userId) = true :=
      h a (List.mem_cons_self a rest)
    simp only [upsertAttendance, if_neg ha, List.cons_append]
    rw [ih (List.find?_eq_none.mpr fun x hx => h x (List.mem_cons_of_mem a hx))]

/-- C3 counterexample: on the fixture store whose only record for
(e1, u1) has `hasPaid = true`, calling `updateAttendance` with the
status argument and no `hasPaid` leaves `hasPaid = false` — the
field-level merge does not preserve the previous `true` value, because
the new record carries every field. -/
theorem updateAttendance_omission_counterexample :
    ((c3Store.attendance.find? (fun a => a.eventId == "e1" && a.userId == "u1")).map
        (fun a => a.hasPaid)) = some true ∧
    (updateAttendance c3Store "e1" "u1" AttStatus.declined none 10).attendance
      = [{ eventId := "e1", userId := "u1", status := AttStatus.declined,
           hasPaid := false, timestamp := 10 }] :=
  ⟨rfl, rfl⟩

/-- C3 (amended): when no record exists for the pair, `updateAttendance`
with `hasPaid` omitted creates a record with `hasPaid = false`; when a
record exists, the merge overwrites every field — including `hasPaid`,
which is reset to `false` on omission rather than preserved — together
with the overwritten status and the fresh timestamp, so the record found
for the pair after the call is always the freshly built one. -/
theorem updateAttendance_omission_semantics (s : Store) (e u : String)
    (st : AttStatus) (now : Nat) :
    (updateAttendance s e u st none now).attendance.find?
        (fun a => a.eventId == e && a.userId == u)
      = some { eventId := e, userId := u, status := st, hasPaid := false,
               timestamp := now } ∧
    (∀ old new : AttendanceRecord, mergeRecord old new = new) ∧
    (s.attendance.find? (fun a => a.eventId == e && a.userId == u) = none →
      (updateAttendance s e u st none now).attendance
        = s.attendance ++
            [{ eventId := e, userId := u, status := st, hasPaid := false,
               timestamp := now }]) := by
  refine ⟨?_, fun old new => mergeRecord_eq old new, ?_⟩
  · exact find?_upsertAttendance s.attendance (mkAttendanceRecord e u st none now)
  · intro h
    exact upsertAttendance_of_find?_none s.attendance (mkAttendanceRecord e u st none now) h

/-- C3 witness: the amended theorem applied to the empty store, whose
lookup for the pair is `none`. -/
theorem updateAttendance_omission_semantics_witness :
    emptyStore.attendance.find? (fun a => a.eventId == "e1" && a.userId == "u1") = none ∧
    (updateAttendance emptyStore "e1" "u1" AttStatus.joined none 7).attendance
      = emptyStore.attendance ++
          [{ eventId := "e1", userId := "u1", status := AttStatus.joined,
             hasPaid := false, timestamp := 7 }] :=
  ⟨rfl, (updateAttendance_omission_semantics emptyStore "e1" "u1" AttStatus.joined 7).2.2 rfl⟩

theorem updateEventList_of_find?_none (l : List StoredEvent) (d : StoredEvent)
    (h : l.find? (fun x => x.id == d.id) = none) :
    updateEventList l d = l := by
  induction l with
  | nil => rfl
  | cons a rest ih =>
    rw [List.find?_eq_none] at h
    have ha : ¬(a.id == d.id) = true := h a (List.mem_cons_self a rest)
    simp only [updateEventList, if_neg ha]
    rw [ih (List.find?_eq_none.mpr fun x hx => h x (List.mem_cons_of_mem a hx))]

/-- C4 counterexample: on the empty store, `updateEvent` with an unknown
event id, `deleteUser` with an unknown user id and `deleteEvent` with an
unknown event id all complete normally — their return types carry no
error channel — and leave the store unchanged, i.e. they are silent
no-ops rather than raising a not-found error. -/
theorem missing_id_noop_counterexample :
    updateEvent emptyStore missingEvent = emptyStore ∧
    deleteUser emptyStore "u9" = emptyStore ∧
    deleteEvent emptyStore "e9" = emptyStore :=
  ⟨rfl, rfl, rfl⟩

/-- C4 (amended): only `updateUser` raises the not-found error when the
id is missing (leaving the store untouched); `updateEvent` with an
unknown id silently returns the unchanged store, and `deleteUser` /
`deleteEvent` with an unknown id complete without error, keeping the
users / events collection unchanged while still filtering the
attendance collection by the given key. -/
theorem missing_id_behavior (s : Store) (uid eid : String) (upd : UserUpdate)
    (ev : VolleyballEvent) :
    (s.users.find? (fun x => x.id == uid) = none →
      updateUser s uid upd = .error "Uživatel nenalezen.") ∧
    (s.events.find? (fun x => x.id == ev.stored.id) = none →
      updateEvent s ev = s) ∧
    (s.users.find? (fun x => x.id == uid) = none →
      (deleteUser s uid).users = s.users) ∧
    (deleteUser s uid).attendance = s.attendance.filter (fun a => a.userId != uid) ∧
    (s.events.find? (fun x => x.id == eid) = none →
      (deleteEvent s eid).events = s.events) ∧
    (deleteEvent s eid).attendance = s.attendance.filter (fun a => a.eventId != eid) := by
  refine ⟨?_, ?_, ?_, rfl, ?_, rfl⟩
  · intro h
    unfold updateUser getUsers
    rw [h]
  · intro h
    have hl := updateEventList_of_find?_none s.events ev.stored h
    unfold updateEvent
    rw [hl]
  · intro h
    rw [List.find?_eq_none] at h
    show s.users.filter (fun x => x.id != uid) = s.users
    apply List.filter_eq_self.mpr
    intro x hx
    have := h x hx
    simpa using this
  · intro h
    rw [List.find?_eq_none] at h
    show s.events.filter (fun x => x.id != eid) = s.events
    apply List.filter_eq_self.mpr
    intro x hx
    have := h x hx
    simpa using this

/-- C4 witness: the amended theorem applied to the two-user fixture with
ids u9 and e9 that are absent from it. -/
theorem missing_id_behavior_witness :
    c5Store.users.find? (fun x => x.id == "u9") = none ∧
    c5Store.events.find? (fun x => x.id == "e9") = none ∧
    updateUser c5Store "u9" {} = .error "Uživatel nenalezen." ∧
    (deleteUser c5Store "u9").users = c5Store.users ∧
    (deleteEvent c5Store "e9").events = c5Store.events := by
  refine ⟨rfl, rfl, ?_, ?_, ?_⟩
  · exact (missing_id_behavior c5Store "u9" "e9" {} missingEvent).1 rfl
  · exact (missing_id_behavior c5Store "u9" "e9" {} missingEvent).2.2.1 rfl
  · exact (missing_id_behavior c5Store "u9" "e9" {} missingEvent).2.2.2.2.1 rfl

theorem mem_upsertAttendance {l : List AttendanceRecord} {r x : AttendanceRecord}
    (hx : x ∈ upsertAttendance l r) : x = r ∨ x ∈ l := by
  induction l with
  | nil =>
    simp only [upsertAttendance, List.mem_singleton] at hx
    exact Or.inl hx
  | cons a rest ih =>
    by_cases h : (a.eventId == r.eventId && a.userId == r.userId) = true
    · simp only [upsertAttendance, if_pos h, mergeRecord_eq, List.mem_cons] at hx
      rcases hx with h1 | h1
      · exact Or.inl h1
      · exact Or.inr (List.mem_cons_of_mem a h1)
    · simp only [upsertAttendance, if_neg h, List.mem_cons] at hx
      rcases hx with h1 | h1
      · exact Or.inr (h1 ▸ List.mem_cons_self a rest)
      · rcases ih h1 with h2 | h2
        · exact Or.inl h2
        · exact Or.inr (List.mem_cons_of_mem a h2)

theorem sameKey_of_beq {a r : AttendanceRecord}
    (h : (a.eventId == r.eventId && a.userId == r.userId) = true) :
    a.eventId = r.eventId ∧ a.userId = r.userId := by
  rw [Bool.and_eq_true] at h
  exact ⟨by simpa using h.1, by simpa using h.2⟩

theorem noDupKeys_upsertAttendance {l : List AttendanceRecord} (r : AttendanceRecord)
    (h : NoDupKeys l) : NoDupKeys (upsertAttendance l r) := by
  unfold NoDupKeys at h ⊢
  induction l with
  | nil =>
    simp only [upsertAttendance]
    exact List.pairwise_singleton _ _
  | cons a rest ih =>
    rw [List.pairwise_cons] at h
    obtain ⟨ha, hrest⟩ := h
    by_cases hkey : (a.eventId == r.eventId && a.userId == r.userId) = true
    · simp only [upsertAttendance, if_pos hkey, mergeRecord_eq]
      rw [List.pairwise_cons]
      refine ⟨?_, hrest⟩
      intro b hb hcontra
      have heq := sameKey_of_beq hkey
      exact ha b hb ⟨heq.1.trans hcontra.1, heq.2.trans hcontra.2⟩
    · simp only [upsertAttendance, if_neg hkey]
      rw [List.pairwise_cons]
      refine ⟨?_, ih hrest⟩
      intro b hb
      rcases mem_upsertAttendance hb with rfl | hbl
      · intro hcontra
        exact hkey (by simp [hcontra.1, hcontra.2])
      · exact ha b hbl

theorem filter_upsertAttendance {l : List AttendanceRecord} (r : AttendanceRecord)
    (h : NoDupKeys l) :
    (upsertAttendance l r).filter
        (fun a => a.eventId == r.eventId && a.userId == r.userId)
      = [r] := by
  unfold NoDupKeys at h
  induction l with
  | nil =>
    simp only [upsertAttendance]
    rw [List.filter_cons_of_pos (by simp)]
    rfl
  | cons a rest ih =>
    rw [List.pairwise_cons] at h
    obtain ⟨ha, hrest⟩ := h
    by_cases hkey : (a.eventId == r.eventId && a.userId == r.userId) = true
    · simp only [upsertAttendance, if_pos hkey, mergeRecord_eq]
      rw [List.filter_cons_of_pos (by simp)]
      have hnil : rest.filter
          (fun a => a.eventId == r.eventId && a.userId == r.userId) = [] := by
        rw [List.filter_eq_nil_iff]
        intro b hb hkb
        have heqa := sameKey_of_beq hkey
        have heqb := sameKey_of_beq hkb
        exact ha b hb ⟨heqa.1.trans heqb.1.symm, heqa.2.trans heqb.2.symm⟩
      rw [hnil]
    · simp only [upsertAttendance, if_neg hkey]
      rw [@List.filter_cons_of_neg _
        (fun x => x.eventId == r.eventId && x.userId == r.userId) a
        (upsertAttendance rest r) hkey]
      exact ih hrest

/-- C8: attendance upsert idempotence on the natural key — every
`updateAttendance` call preserves the at-most-one-record-per-key
invariant, and starting from a store satisfying it, two identical calls
for (e, u) with status joined and explicit `hasPaid = false` leave
exactly one record for the pair, carrying the fields of the latest call
(in particular its timestamp). -/
theorem updateAttendance_upsert_key_invariant (s : Store) (e u : String)
    (now1 now2 : Nat) (st : AttStatus) (hp : Option Bool) (now : Nat)
    (h : NoDupKeys s.attendance) :
    NoDupKeys (updateAttendance s e u st hp now).attendance ∧
    (updateAttendance (updateAttendance s e u AttStatus.joined (some false) now1)
          e u AttStatus.joined (some false) now2).attendance.filter
        (fun a => a.eventId == e && a.userId == u)
      = [{ eventId := e, userId := u, status := AttStatus.joined,
           hasPaid := false, timestamp := now2 }] := by
  constructor
  · exact noDupKeys_upsertAttendance (mkAttendanceRecord e u st hp now) h
  · exact filter_upsertAttendance
      (mkAttendanceRecord e u AttStatus.joined (some false) now2)
      (noDupKeys_upsertAttendance
        (mkAttendanceRecord e u AttStatus.joined (some false) now1) h)

/-- C8 witness: the invariant theorem applied to the fixture store whose
single attendance record satisfies the key invariant. -/
theorem updateAttendance_upsert_key_invariant_witness :
    NoDupKeys c3Store.attendance ∧
    (updateAttendance (updateAttendance c3Store "e1" "u1" AttStatus.joined (some false) 11)
          "e1" "u1" AttStatus.joined (some false) 12).attendance.filter
        (fun a => a.eventId == "e1" && a.userId == "u1")
      = [{ eventId := "e1", userId := "u1", status := AttStatus.joined,
           hasPaid := false, timestamp := 12 }] := by
  have h : NoDupKeys c3Store.attendance := List.pairwise_singleton _ _
  exact ⟨h,
    (updateAttendance_upsert_key_invariant c3Store "e1" "u1" 11 12
      AttStatus.joined none 0 h).2⟩

theorem jsCeilDiv_is_ceil (a b : Nat) (hb : 0 < b) :
    a ≤ jsCeilDiv a b * b ∧ ∀ m : Nat, a ≤ m * b → jsCeilDiv a b ≤ m := by
  have heq : jsCeilDiv a b = a ⌈/⌉ b := (Nat.ceilDiv_eq_add_pred_div a b).symm
  constructor
  · have h1 : a ≤ b • (a ⌈/⌉ b) := le_smul_ceilDiv hb
    rw [smul_eq_mul] at h1
    rw [heq, mul_comm]
    exact h1
  · intro m hm
    rw [heq]
    exact (ceilDiv_le_iff_le_mul hb).mpr (by rwa [mul_comm] at hm)

/-- C2: debt computation — a `DebtItem` is produced for an event exactly
when the calendar-day difference between now and the event date exceeds
1 and the current user has a participant entry with status joined and
`hasPaid = false`; its `daysOverdue` is that difference and its amount
is the ceiling of `totalCost` over the number of joined participants
(0 when none joined); `jsCeilDiv` is the exact ceiling (least `m` with
`totalCost ≤ m * count`); concretely, the 10-day-old event with total
1000 and two joined participants yields amount 500 and daysOverdue 10
for the unpaid joined user, while a paid user, a declined user, or an
event exactly 1 day old yields nothing. -/
theorem computeDebts_correct (events : List VolleyballEvent) (uid : String)
    (dateDay : String → Int) (todayDay : Int) (e : VolleyballEvent) (d : DebtItem) :
    (computeDebts events uid dateDay todayDay
        = events.filterMap (debtForEvent uid dateDay todayDay)) ∧
    (debtForEvent uid dateDay todayDay e = some d ↔
      todayDay - dateDay e.stored.date > 1 ∧
      ∃ p, e.participants.find? (fun q => q.userId == uid) = some p ∧
        p.status = AttStatus.joined ∧ p.hasPaid = false ∧
        d = { event := e
              amount :=
                if (e.participants.filter
                      (fun q => q.status == AttStatus.joined)).length > 0 then
                  jsCeilDiv e.stored.totalCost
                    (e.participants.filter
                      (fun q => q.status == AttStatus.joined)).length
                else 0
              daysOverdue := todayDay - dateDay e.stored.date }) ∧
    (∀ a b : Nat, 0 < b →
      a ≤ jsCeilDiv a b * b ∧ ∀ m : Nat, a ≤ m * b → jsCeilDiv a b ≤ m) ∧
    computeDebts [debtEv] "u1" (fun _ => 0) 10
      = [{ event := debtEv, amount := 500, daysOverdue := 10 }] ∧
    computeDebts [debtEv] "u1" (fun _ => 0) 1 = [] ∧
    computeDebts [debtEvPaid] "u1" (fun _ => 0) 10 = [] ∧
    computeDebts [debtEvDeclined] "u1" (fun _ => 0) 10 = [] := by
  refine ⟨rfl, ?_, fun a b hb => jsCeilDiv_is_ceil a b hb,
    by decide, by decide, by decide, by decide⟩
  simp only [debtForEvent]
  by_cases hd : todayDay - dateDay e.stored.date > 1
  · rw [if_pos hd]
    cases hfind : e.participants.find? (fun q => q.userId == uid) with
    | none => simp [hfind]
    | some p =>
      simp only [hfind]
      by_cases hs : (p.status == AttStatus.joined && !p.hasPaid) = true
      · rw [if_pos hs]
        obtain ⟨hstat, hpaid⟩ : p.status = AttStatus.joined ∧ p.hasPaid = false := by
          rw [Bool.and_eq_true] at hs
          exact ⟨by simpa using hs.1, by simpa using hs.2⟩
        constructor
        · intro h
          exact ⟨hd, p, rfl, hstat, hpaid, (Option.some.inj h).symm⟩
        · rintro ⟨-, q, hq, -, -, hdq⟩
          rw [hdq]
      · rw [if_neg hs]
        constructor
        · intro h
          cases h
        · rintro ⟨-, q, hq, hstat, hpaid, -⟩
          have hqp : p = q := Option.some.inj hq
          exact absurd (by simp [hqp, hstat, hpaid]) hs
  · rw [if_neg hd]
    constructor
    · intro h
      cases h
    · rintro ⟨hd2, -⟩
      exact absurd hd2 hd

/-- C2 witness: the debt theorem applied at the concrete scenario values,
discharging the positivity hypothesis of the ceiling characterization at
1000 over 2 participants. -/
theorem computeDebts_correct_witness :
    (0 : Nat) < 2 ∧ 1000 ≤ jsCeilDiv 1000 2 * 2 ∧
    computeDebts [debtEv] "u1" (fun _ => 0) 10
      = [{ event := debtEv, amount := 500, daysOverdue := 10 }] := by
  have h := computeDebts_correct [debtEv] "u1" (fun _ => 0) 10 debtEv
    { event := debtEv, amount := 500, daysOverdue := 10 }
  exact ⟨by decide, (h.2.2.1 1000 2 (by decide)).1, h.2.2.2.1⟩

theorem mod97_foldl (l : List Char) (acc : Nat) :
    l.foldl mod97Step (acc % 97)
      = (l.foldl (fun a c => a * 10 + (c.toNat - Char.toNat '0')) acc) % 97 := by
  induction l generalizing acc with
  | nil => simp
  | cons c l ih =>
    simp only [List.foldl_cons]
    have hstep : mod97Step (acc % 97) c = (acc * 10 + (c.toNat - Char.toNat '0')) % 97 :=
      Nat.ModEq.add_right _ ((Nat.mod_modEq acc 97).mul_right 10)
    rw [hstep]
    exact ih _

theorem mod97OfDigits_eq (t : String) :
    mod97OfDigits t = decimalValue t % 97 := by
  unfold mod97OfDigits decimalValue
  simpa using mod97_foldl t.data 0

theorem mod97OfDigits_lt (t : String) : mod97OfDigits t < 97 := by
  rw [mod97OfDigits_eq]
  exact Nat.mod_lt _ (by decide)

theorem padStartZeros_length (n : Nat) (s : String) :
    (padStartZeros n s).length = max n s.length := by
  unfold padStartZeros
  rw [String.length_append]
  show (List.replicate (n - s.length) '0').length + s.length = max n s.length
  rw [List.length_replicate]
  omega

theorem padStartZeros_of_length_eq (s : String) (n : Nat) (h : s.length = n) :
    padStartZeros n s = s := by
  unfold padStartZeros
  rw [h, Nat.sub_self]
  apply String.ext
  simp

theorem padStartZeros_all_digits (n : Nat) (s : String)
    (h : s.data.all Char.isDigit = true) :
    (padStartZeros n s).data.all Char.isDigit = true := by
  unfold padStartZeros
  rw [String.data_append, List.all_append, Bool.and_eq_true]
  refine ⟨?_, h⟩
  show (List.replicate (n - s.length) '0').all Char.isDigit = true
  rw [List.all_eq_true]
  intro c hc
  rw [List.eq_of_mem_replicate hc]
  decide

theorem padTwo_toString_length :
    ∀ v : Nat, v < 99 → (padStartZeros 2 (toString v)).length = 2 := by decide

theorem take_drop_middle {α : Type _} (l1 l2 l3 : List α) (n m : Nat)
    (h1 : l1.length = n) (h2 : l2.length = m) :
    ((l1 ++ (l2 ++ l3)).drop n).take m = l2 := by
  have hd : (l1 ++ (l2 ++ l3)).drop n = l2 ++ l3 := by
    rw [← h1]
    exact List.drop_left l1 (l2 ++ l3)
  rw [hd, ← h2]
  exact List.take_left l2 l3

theorem parseAccountNumber_facts {s pfx num bank : String}
    (h : parseAccountNumber s = some (pfx, num, bank)) :
    pfx.length ≤ 6 ∧ 1 ≤ num.length ∧ num.length ≤ 10 ∧ bank.length = 4 ∧
    pfx.data.all Char.isDigit = true ∧ num.data.all Char.isDigit = true ∧
    bank.data.all Char.isDigit = true := by
  unfold parseAccountNumber at h
  split at h
  case _ before bankCode =>
    split at h
    case _ hbank =>
      rw [Bool.and_eq_true] at hbank
      split at h
      case _ n =>
        split at h
        case _ hnum =>
          rw [Option.some.injEq, Prod.mk.injEq, Prod.mk.injEq] at h
          obtain ⟨rfl, rfl, rfl⟩ := h
          simp only [Bool.and_eq_true, decide_eq_true_eq] at hnum
          obtain ⟨⟨hn1, hn10⟩, hnd⟩ := hnum
          exact ⟨by simp, hn1, hn10, by simpa using hbank.1, by simp, hnd, hbank.2⟩
        case _ => cases h
      case _ p n =>
        split at h
        case _ hpn =>
          rw [Option.some.injEq, Prod.mk.injEq, Prod.mk.injEq] at h
          obtain ⟨rfl, rfl, rfl⟩ := h
          simp only [Bool.and_eq_true, decide_eq_true_eq] at hpn
          obtain ⟨⟨⟨⟨⟨hp1, hp6⟩, hpd⟩, hn1⟩, hn10⟩, hnd⟩ := hpn
          exact ⟨hp6, hn1, hn10, by simpa using hbank.1, hpd, hnd, hbank.2⟩
        case _ => cases h
      case _ => cases h
    case _ => cases h
  case _ => cases h

/-- C6 counterexample: the string SK6508000000192000145399 is 2 letters
followed by 22 digits (the pattern named by the claim) and contains no
whitespace, yet `convertToCZIBAN` returns none instead of returning it
unchanged — the source regex requires the literal letters CZ, not an
arbitrary two-letter country code. -/
theorem convertToCZIBAN_two_letters_counterexample :
    specTwoLettersPattern "SK6508000000192000145399" = true ∧
    removeWhitespace "SK6508000000192000145399" = "SK6508000000192000145399" ∧
    convertToCZIBAN "SK6508000000192000145399" = none := by
  refine ⟨by decide, by decide, by decide⟩

/-- C6 (amended): `convertToCZIBAN` is a pure total function; after
removing internal whitespace, (1) input matching the source pattern —
the literal letters CZ followed by 22 digits; this is the correction,
since the claim admits any 2 letters — is returned unchanged (as the
cleaned string); (2) input matching neither that pattern nor the
bank-account pattern yields none, never an exception (concretely for
not-an-account and 123/123); (3) otherwise the result is CZ ++
checkDigits ++ BBAN with BBAN = bankCode(4 digits) ++ zero-padded
prefix(6) ++ zero-padded number(10) — 20 digits, 24 characters in
total, the bank code at 0-indexed positions 4 to 8 — and checkDigits
the two-digit zero-padded value of 98 minus the mod-97 remainder of
BBAN ++ 123500; (4) the digit-by-digit reduction equals the true mod-97
remainder of the decimal numeral. -/
theorem convertToCZIBAN_correct (s pfx num bank : String) :
    (matchesCZIbanPattern (removeWhitespace s) = true →
      convertToCZIBAN s = some (removeWhitespace s)) ∧
    (matchesCZIbanPattern (removeWhitespace s) = false →
      parseAccountNumber (removeWhitespace s) = none →
      convertToCZIBAN s = none) ∧
    convertToCZIBAN "not-an-account" = none ∧
    convertToCZIBAN "123/123" = none ∧
    (matchesCZIbanPattern (removeWhitespace s) = false →
      parseAccountNumber (removeWhitespace s) = some (pfx, num, bank) →
      convertToCZIBAN s
        = some ("CZ"
            ++ padStartZeros 2 (toString (98 - mod97OfDigits
                (padStartZeros 4 bank ++ padStartZeros 6 pfx
                  ++ padStartZeros 10 num ++ "123500")))
            ++ (padStartZeros 4 bank ++ padStartZeros 6 pfx
              ++ padStartZeros 10 num)) ∧
      padStartZeros 4 bank = bank ∧
      (padStartZeros 4 bank ++ padStartZeros 6 pfx
          ++ padStartZeros 10 num).length = 20 ∧
      ((padStartZeros 4 bank ++ padStartZeros 6 pfx
          ++ padStartZeros 10 num).data.all Char.isDigit) = true ∧
      (padStartZeros 2 (toString (98 - mod97OfDigits
          (padStartZeros 4 bank ++ padStartZeros 6 pfx
            ++ padStartZeros 10 num ++ "123500")))).length = 2 ∧
      ("CZ" ++ padStartZeros 2 (toString (98 - mod97OfDigits
            (padStartZeros 4 bank ++ padStartZeros 6 pfx
              ++ padStartZeros 10 num ++ "123500")))
          ++ (padStartZeros 4 bank ++ padStartZeros 6 pfx
            ++ padStartZeros 10 num)).length = 24 ∧
      ((("CZ" ++ padStartZeros 2 (toString (98 - mod97OfDigits
            (padStartZeros 4 bank ++ padStartZeros 6 pfx
              ++ padStartZeros 10 num ++ "123500")))
          ++ (padStartZeros 4 bank ++ padStartZeros 6 pfx
            ++ padStartZeros 10 num)).data.drop 4).take 4 = bank.data)) ∧
    (∀ t : String, mod97OfDigits t = decimalValue t % 97) := by
  refine ⟨?_, ?_, by decide, by decide, ?_, mod97OfDigits_eq⟩
  · intro h
    by_cases hse : (s == "") = true
    · have hs0 : s = "" := by simpa using hse
      subst hs0
      exact absurd h (by decide)
    · simp only [convertToCZIBAN]
      rw [if_neg hse, if_pos h]
  · intro hm hp
    by_cases hse : (s == "") = true
    · simp only [convertToCZIBAN]
      rw [if_pos hse]
    · simp only [convertToCZIBAN]
      rw [if_neg hse, if_neg (by simp [hm]), hp]
  · intro hm hp
    obtain ⟨hp6, hn1, hn10, hb4, hpd, hnd, hbd⟩ := parseAccountNumber_facts hp
    have hne : ¬(s == "") = true := by
      intro hb
      have hs0 : s = "" := by simpa using hb
      subst hs0
      rw [show parseAccountNumber (removeWhitespace "") = none from by decide] at hp
      cases hp
    have hbankpad : padStartZeros 4 bank = bank := padStartZeros_of_length_eq bank 4 hb4
    have hlen4 : (padStartZeros 4 bank).length = 4 := by
      rw [padStartZeros_length]; omega
    have hlen6 : (padStartZeros 6 pfx).length = 6 := by
      rw [padStartZeros_length]; omega
    have hlen10 : (padStartZeros 10 num).length = 10 := by
      rw [padStartZeros_length]; omega
    have hbbanlen : (padStartZeros 4 bank ++ padStartZeros 6 pfx
        ++ padStartZeros 10 num).length = 20 := by
      rw [String.length_append, String.length_append, hlen4, hlen6, hlen10]
    have hchklen : (padStartZeros 2 (toString (98 - mod97OfDigits
        (padStartZeros 4 bank ++ padStartZeros 6 pfx
          ++ padStartZeros 10 num ++ "123500")))).length = 2 := by
      apply padTwo_toString_length
      have := mod97OfDigits_lt (padStartZeros 4 bank ++ padStartZeros 6 pfx
        ++ padStartZeros 10 num ++ "123500")
      omega
    refine ⟨?_, hbankpad, hbbanlen, ?_, hchklen, ?_, ?_⟩
    · simp only [convertToCZIBAN]
      rw [if_neg hne, if_neg (by simp [hm]), hp]
    · rw [String.data_append, List.all_append, Bool.and_eq_true]
      refine ⟨?_, padStartZeros_all_digits 10 num hnd⟩
      rw [String.data_append, List.all_append, Bool.and_eq_true]
      exact ⟨padStartZeros_all_digits 4 bank hbd, padStartZeros_all_digits 6 pfx hpd⟩
    · rw [String.length_append, String.length_append, hchklen, hbbanlen]
      rfl
    · have hchkd : (padStartZeros 2 (toString (98 - mod97OfDigits
          (padStartZeros 4 bank ++ padStartZeros 6 pfx
            ++ padStartZeros 10 num ++ "123500")))).data.length = 2 := hchklen
      have hl4d : (padStartZeros 4 bank).data.length = 4 := hlen4
      have hdata : ("CZ" ++ padStartZeros 2 (toString (98 - mod97OfDigits
            (padStartZeros 4 bank ++ padStartZeros 6 pfx
              ++ padStartZeros 10 num ++ "123500")))
          ++ (padStartZeros 4 bank ++ padStartZeros 6 pfx
            ++ padStartZeros 10 num)).data
          = ("CZ".data ++ (padStartZeros 2 (toString (98 - mod97OfDigits
              (padStartZeros 4 bank ++ padStartZeros 6 pfx
                ++ padStartZeros 10 num ++ "123500")))).data)
            ++ ((padStartZeros 4 bank).data ++ ((padStartZeros 6 pfx).data
              ++ (padStartZeros 10 num).data)) := by
        rw [String.data_append, String.data_append, String.data_append,
          String.data_append,
          List.append_assoc (padStartZeros 4 bank).data (padStartZeros 6 pfx).data
            (padStartZeros 10 num).data]
      rw [hdata]
      have hl : ("CZ".data ++ (padStartZeros 2 (toString (98 - mod97OfDigits
          (padStartZeros 4 bank ++ padStartZeros 6 pfx
            ++ padStartZeros 10 num ++ "123500")))).data).length = 4 := by
        rw [List.length_append, hchkd]
        rfl
      rw [take_drop_middle _ _ _ 4 4 hl hl4d, hbankpad]


/-- C6 witness: the amended theorem applied to the already-an-IBAN test
vector and to the prefixed account number of the repository test suite,
discharging the pattern and parse hypotheses by evaluation. -/
theorem convertToCZIBAN_correct_witness :
    matchesCZIbanPattern (removeWhitespace "CZ6508000000192000145399") = true ∧
    convertToCZIBAN "CZ6508000000192000145399"
      = some (removeWhitespace "CZ6508000000192000145399") ∧
    matchesCZIbanPattern (removeWhitespace "19-2000145399/0800") = false ∧
    parseAccountNumber (removeWhitespace "19-2000145399/0800")
      = some ("19", "2000145399", "0800") ∧
    convertToCZIBAN "19-2000145399/0800"
      = some ("CZ"
          ++ padStartZeros 2 (toString (98 - mod97OfDigits
              (padStartZeros 4 "0800" ++ padStartZeros 6 "19"
                ++ padStartZeros 10 "2000145399" ++ "123500")))
          ++ (padStartZeros 4 "0800" ++ padStartZeros 6 "19"
            ++ padStartZeros 10 "2000145399")) := by
  refine ⟨by decide, ?_, by decide, by decide, ?_⟩
  · exact (convertToCZIBAN_correct "CZ6508000000192000145399" "" "" "").1 (by decide)
  · exact ((convertToCZIBAN_correct "19-2000145399/0800" "19" "2000145399"
      "0800").2.2.2.2.1 (by decide) (by decide)).1

/-- C7 counterexample: with the event and attendance fetches resolving
and only the user fetch rejecting, `getEvents` still succeeds but the
hydrated event has a NON-empty participant list — one fallback-named
participant per attendance record — contradicting the claim that a
failed user fetch produces events with empty participant lists. -/
theorem getEvents_user_fetch_failure_counterexample :
    usersDownBackend.usersDocs = Except.error "unavailable" ∧
    getEventsF usersDownBackend
      = [{ stored := gameEvent
           participants := [{ userId := "u1", name := "Neznámý", photoUrl := none,
                              status := AttStatus.joined, hasPaid := false }] }] ∧
    (getEventsF usersDownBackend).all (fun v => v.participants.isEmpty) = false :=
  ⟨rfl, by decide, by decide⟩

/-- C7 (amended): read/write failure asymmetry — each read swallows the
rejection of its backend fetch and returns the empty collection;
`getEvents` never rejects, and when the attendance fetch fails every
hydrated event has an empty participant list, while when only the user
fetch fails participants are still produced, carrying the fallback name
(this is the correction: the participant lists are not empty in that
case); every write operation propagates the rejection of the backend
call it performs. -/
theorem read_write_failure_asymmetry (b : Backend) (msg nm uid eid : String)
    (photo : Option String) (newId : String) (upd : UserUpdate)
    (st : AttStatus) (hp : Option Bool) (now : Nat) :
    (b.usersDocs = .error msg → getUsersF b = []) ∧
    (b.attendanceDocs = .error msg → getAttendancesF b = []) ∧
    (b.eventsDocs = .error msg → getRawEventsF b = []) ∧
    (b.attendanceDocs = .error msg → ∀ V ∈ getEventsF b, V.participants = []) ∧
    (b.usersDocs = .error msg →
      ∀ V ∈ getEventsF b, ∀ p ∈ V.participants, p.name = "Neznámý") ∧
    ((getUsersF b).any (fun u => jsToLower u.name == jsToLower (jsTrim nm)) = false →
      b.setUserDoc = .error msg → createUserF b nm photo newId = .error msg) ∧
    (∀ u, (getUsersF b).find? (fun x => x.id == uid) = some u →
      b.setUserDoc = .error msg → updateUserF b uid upd = .error msg) ∧
    (b.deleteUserDoc = .error msg → deleteUserF b uid = .error msg) ∧
    (b.setAttendanceDoc = .error msg →
      updateAttendanceF b eid uid st hp now = .error msg) ∧
    (b.setEventDoc = .error msg → createEventF b = .error msg) ∧
    (b.setEventDoc = .error msg → updateEventF b = .error msg) ∧
    (b.deleteEventDoc = .error msg → deleteEventF b eid = .error msg) := by
  refine ⟨?_, ?_, ?_, ?_, ?_, ?_, ?_, ?_, ?_, ?_, ?_, ?_⟩
  · intro h
    unfold getUsersF
    rw [h]
  · intro h
    unfold getAttendancesF
    rw [h]
  · intro h
    unfold getRawEventsF
    rw [h]
  · intro h V hV
    have ha : getAttendancesF b = [] := by
      unfold getAttendancesF
      rw [h]
    simp only [getEventsF, hydrateEvents, ha, List.filter_nil, List.map_nil,
      List.mem_map] at hV
    obtain ⟨E, hE, rfl⟩ := hV
    rfl
  · intro h V hV p hp2
    have hu : getUsersF b = [] := by
      unfold getUsersF
      rw [h]
    simp only [getEventsF, hydrateEvents, List.mem_map] at hV
    obtain ⟨E, hE, rfl⟩ := hV
    simp only [List.mem_map] at hp2
    obtain ⟨a, ha, rfl⟩ := hp2
    unfold hydrateParticipant
    rw [hu]
    rfl
  · intro hany hw
    unfold createUserF
    rw [if_neg (by simp [hany]), hw]
  · intro u hfind hw
    unfold updateUserF
    rw [hfind, hw]
  · intro h
    unfold deleteUserF
    rw [h]
    rfl
  · intro h
    unfold updateAttendanceF
    rw [h]
  · intro h
    unfold createEventF
    rw [h]
  · intro h
    unfold updateEventF
    rw [h]
  · intro h
    unfold deleteEventF
    rw [h]
    rfl

/-- C7 witness: the asymmetry theorem applied to three concrete
backends, one with the user fetch down, one with the attendance fetch
and all writes down, and one with the event fetch down, discharging the
failing-call and guard hypotheses by evaluation. -/
theorem read_write_failure_asymmetry_witness :
    getUsersF usersDownBackend = [] ∧
    getAttendancesF writesDownBackend = [] ∧
    getRawEventsF eventsDownBackend = [] ∧
    ({ stored := gameEvent, participants := [] } : VolleyballEvent)
        ∈ getEventsF writesDownBackend ∧
    ({ stored := gameEvent, participants := [] } : VolleyballEvent).participants = [] ∧
    createUserF writesDownBackend "Bob" none "u9" = .error "offline" ∧
    updateUserF writesDownBackend "u1" {} = .error "offline" ∧
    deleteUserF writesDownBackend "u1" = .error "offline" ∧
    updateAttendanceF writesDownBackend "e1" "u1" AttStatus.joined none 5
      = .error "offline" ∧
    createEventF writesDownBackend = .error "offline" ∧
    updateEventF writesDownBackend = .error "offline" ∧
    deleteEventF writesDownBackend "e1" = .error "offline" := by
  have h := read_write_failure_asymmetry writesDownBackend "offline" "Bob" "u1" "e1"
    none "u9" {} AttStatus.joined none 5
  have h2 := read_write_failure_asymmetry usersDownBackend "unavailable" "" "" ""
    none "" {} AttStatus.joined none 0
  have h3 := read_write_failure_asymmetry eventsDownBackend "unavailable" "" "" ""
    none "" {} AttStatus.joined none 0
  exact ⟨h2.1 rfl, h.2.1 rfl, h3.2.2.1 rfl,
    by decide,
    h.2.2.2.1 rfl { stored := gameEvent, participants := [] } (by decide),
    h.2.2.2.2.2.1 (by decide) rfl,
    h.2.2.2.2.2.2.1 aliceUser (by decide) rfl,
    h.2.2.2.2.2.2.2.1 rfl,
    h.2.2.2.2.2.2.2.2.1 rfl,
    h.2.2.2.2.2.2.2.2.2.1 rfl,
    h.2.2.2.2.2.2.2.2.2.2.1 rfl,
    h.2.2.2.2.2.2.2.2.2.2.2 rfl⟩

end Volleyball
